import Mathlib

/-!
Shallow embedding of the backend file service of the File-management-system
repository (`src/backend/src/services/fileService.js`), together with the
filesystem primitives it calls (`fs-extra`: `pathExists`, `stat`, `readdir`,
`readFile`; `path.join` / `path.basename` / `path.extname` from Node's posix
`path` module; the `archiver` zip walk as described in the specification).

Paths are represented as their normalized segment lists; `path.join`'s
normalization of `.` / `..` / repeated separators is modelled explicitly.
The filesystem is either an explicit tree (`FSNode`) or an abstract record of
primitive operations (`FsOps`), mirroring the fact that the service only ever
touches the disk through those primitives.  Errors are `Except String`, the
error strings being exactly the `Error` messages thrown by the source.
-/

namespace FileManagement

/-- Splitting a character list on `/`, accumulating the current segment
reversed. -/
def splitSlashAux : List Char → List Char → List String
  | [], acc => [String.mk acc.reverse]
  | c :: rest, acc =>
    if c == '/' then String.mk acc.reverse :: splitSlashAux rest []
    else splitSlashAux rest (c :: acc)

/-- `s.split('/')`: equivalent to `String.splitOn "/"` for this
single-character separator, implemented structurally on the characters. -/
def splitSlash (s : String) : List String := splitSlashAux s.data []

/-- Does the string start with `/` (an absolute posix path)? -/
def isAbsolute (s : String) : Bool :=
  match s.data with
  | c :: _ => c == '/'
  | [] => false

/-- ASCII lower-casing of one character (extensions compared against the
MIME table are ASCII). -/
def charLower (c : Char) : Char :=
  if 'A' ≤ c && c ≤ 'Z' then Char.ofNat (c.toNat + 32) else c

/-- ASCII lower-casing of a string, `String.prototype.toLowerCase` on the
ASCII extensions this model compares. -/
def strLower (s : String) : String := String.mk (s.data.map charLower)

/-- Split a path string on `/` and drop empty and `.` segments, keeping `..`
segments.  This is the segment stream Node's posix `path.join` normalizes. -/
def rawSegs (p : String) : List String :=
  (splitSlash p).filter (fun s => !(s == "" || s == "."))

/-- Tail-recursive normalization of a segment stream, resolving `..` against a
stack.  For an absolute path a `..` at the root is dropped (as in posix
`path.join`); for a relative path leading `..` segments are kept. -/
def normSegsAux (absolute : Bool) : List String → List String → List String
  | acc, [] => acc.reverse
  | acc, s :: rest =>
    if s == ".." then
      match acc with
      | [] =>
        if absolute then normSegsAux absolute [] rest
        else normSegsAux absolute [".."] rest
      | t :: tl =>
        if t == ".." then normSegsAux absolute (s :: t :: tl) rest
        else normSegsAux absolute tl rest
    else normSegsAux absolute (s :: acc) rest

/-- Normalized segments of an absolute path. -/
def normAbs (segs : List String) : List String := normSegsAux true [] segs

/-- Normalized segments of a relative path. -/
def normRel (segs : List String) : List String := normSegsAux false [] segs

/-- `path.join(dataDir, p)` where `dataDir` is the (already normalized,
absolute) base directory: concatenate the segment streams and normalize.
This is the `fullPath` computed at the top of every public operation of
`FileService`; note that `..` segments of `p` pop segments of `dataDir`. -/
def resolveFull (dataDir : List String) (p : String) : List String :=
  normAbs (dataDir ++ rawSegs p)

/-- Node's posix `path.join(a, b)` on strings (used for the logical `path`
field of a listing entry; the subsequent `.replace(/\\/g, '/')` of the source
is the identity on posix joins, which never contain backslashes). -/
def pathJoinStr (a b : String) : String :=
  if isAbsolute a then
    "/" ++ "/".intercalate (normAbs (rawSegs a ++ rawSegs b))
  else
    let r := normRel (rawSegs a ++ rawSegs b)
    if r.isEmpty then "." else "/".intercalate r

/-- Node's `path.basename`: the last nonempty `/`-separated segment (the
argument itself when there is none, e.g. `basename "/" = "/"`). -/
def basename (p : String) : String :=
  match ((splitSlash p).filter (fun s => !(s == ""))).getLast? with
  | some s => s
  | none => p

/-- Node's `path.extname` on a path: the suffix of the basename from its last
dot, empty when there is no dot or the only dot is the basename's first
character (`extname ".bashrc" = ""`, `extname "a.txt" = ".txt"`). -/
def extname (p : String) : String :=
  let b := (basename p).toList
  match b.reverse.findIdx? (fun c => c == '.') with
  | none => ""
  | some r =>
    let i := b.length - 1 - r
    if i == 0 then "" else String.mk (b.drop i)

/-- `true` iff `root` is an initial run of `p`: the location `p` is `root`
itself or a descendant of `root`.  Used to state traversal-safety claims. -/
def underRoot : List String → List String → Bool
  | [], _ => true
  | _ :: _, [] => false
  | a :: as, b :: bs => a == b && underRoot as bs

/-! ### The filesystem -/

/-- A filesystem tree.  A file carries its bytes on disk and its mtime
(already rendered as the ISO-8601 string `stat.mtime.toISOString()` yields);
a directory carries its `stat`-reported size (filesystem-dependent, e.g. 4096
on ext4), its mtime and its named children in `readdir` order. -/
inductive FSNode where
  | file (bytes : List Nat) (mtimeIso : String)
  | dir (statSize : Nat) (mtimeIso : String) (children : List (String × FSNode))
deriving Repr

/-- Look a name up among directory children. -/
def findChild (seg : String) : List (String × FSNode) → Option FSNode
  | [] => none
  | (n, c) :: rest => if n == seg then some c else findChild seg rest

/-- Walk a normalized segment list down the tree. -/
def FSNode.find : FSNode → List String → Option FSNode
  | node, [] => some node
  | node, seg :: rest =>
    match node with
    | .file _ _ => none
    | .dir _ _ cs =>
      match findChild seg cs with
      | none => none
      | some c => FSNode.find c rest

/-- What `fs.stat` reports: directory flag, size in bytes, mtime. -/
structure Stat where
  isDirectory : Bool
  size : Nat
  mtimeIso : String
deriving Repr, DecidableEq

/-- The `stat` of a tree node: a file's size is its byte count on disk, a
directory's size is whatever the filesystem reports for the inode. -/
def statOfNode : FSNode → Stat
  | .file bytes m => ⟨false, bytes.length, m⟩
  | .dir sz m _ => ⟨true, sz, m⟩

/-- The filesystem primitives `FileService` calls, as oracles.  `stat`,
`readdir` and `readFile` may fail with an error message (e.g. an `ENOENT`
race when a child is deleted between `readdir` and `stat`); `fs.pathExists`
resolves to a boolean and never throws. -/
structure FsOps where
  pathExists : List String → Bool
  stat : List String → Except String Stat
  readdir : List String → Except String (List String)
  readFileBytes : List String → Except String (List Nat)

/-- The primitives of a static, race-free filesystem tree. -/
def FsOps.ofTree (root : FSNode) : FsOps where
  pathExists segs := (root.find segs).isSome
  stat segs :=
    match root.find segs with
    | some n => .ok (statOfNode n)
    | none => .error "ENOENT: no such file or directory"
  readdir segs :=
    match root.find segs with
    | some (.dir _ _ cs) => .ok (cs.map Prod.fst)
    | some (.file _ _) => .error "ENOTDIR: not a directory"
    | none => .error "ENOENT: no such file or directory"
  readFileBytes segs :=
    match root.find segs with
    | some (.file bytes _) => .ok bytes
    | some (.dir _ _ _) => .error "EISDIR: illegal operation on a directory, read"
    | none => .error "ENOENT: no such file or directory"

/-! ### UTF-8 decoding (`fs.readFile(path, 'utf8')`) -/

/-- U+FFFD, what Node substitutes for malformed UTF-8. -/
def replacementChar : Char := Char.ofNat 0xFFFD

/-- Is a byte a UTF-8 continuation byte? -/
def isCont (b : Nat) : Bool := 0x80 ≤ b && b < 0xC0

/-- UTF-8 decoding of a byte list, substituting U+FFFD for malformed input,
as Node's `'utf8'` decoding does.  Multi-byte sequences decode to a single
character, so the character count can be smaller than the byte count. -/
def utf8DecodeChars : List Nat → List Char
  | [] => []
  | b :: rest =>
    if b < 0x80 then Char.ofNat b :: utf8DecodeChars rest
    else if b < 0xC2 then replacementChar :: utf8DecodeChars rest
    else if b < 0xE0 then
      match rest with
      | b1 :: rest1 =>
        if isCont b1 then
          Char.ofNat ((b % 32) * 64 + (b1 % 64)) :: utf8DecodeChars rest1
        else replacementChar :: utf8DecodeChars (b1 :: rest1)
      | [] => [replacementChar]
    else if b < 0xF0 then
      match rest with
      | b1 :: b2 :: rest2 =>
        if isCont b1 && isCont b2 then
          Char.ofNat ((b % 16) * 4096 + (b1 % 64) * 64 + (b2 % 64)) ::
            utf8DecodeChars rest2
        else replacementChar :: utf8DecodeChars (b1 :: b2 :: rest2)
      | _ => [replacementChar]
    else
      match rest with
      | b1 :: b2 :: b3 :: rest3 =>
        if isCont b1 && isCont b2 && isCont b3 then
          Char.ofNat ((b % 8) * 262144 + (b1 % 64) * 4096 + (b2 % 64) * 64
            + (b3 % 64)) :: utf8DecodeChars rest3
        else replacementChar :: utf8DecodeChars (b1 :: b2 :: b3 :: rest3)
      | _ => [replacementChar]

/-- The string `fs.readFile(path, 'utf8')` returns for the given bytes. -/
def utf8DecodeLossy (bytes : List Nat) : String :=
  String.mk (utf8DecodeChars bytes)

/-! ### Listing entries -/

/-- One serialized listing entry, as built by `FileService._getItemInfo`. -/
structure Item where
  name : String
  path : String
  isFolder : Bool
  size : Nat
  modified : String
deriving Repr, DecidableEq

/-- The comparator passed to `Array.prototype.sort` in
`FileService._sortItems`: folders strictly first, otherwise
`a.name.localeCompare(b.name)`.  The locale comparison `lc` is a parameter
of the embedding since it is locale-dependent at runtime. -/
def itemCmp (lc : String → String → Int) (a b : Item) : Int :=
  if a.isFolder && !b.isFolder then -1
  else if !a.isFolder && b.isFolder then 1
  else lc a.name b.name

/-- The non-strict order induced by the comparator, as `Array.sort` uses it
(`a` may precede `b` iff the comparator is `≤ 0`). -/
def itemLe (lc : String → String → Int) (a b : Item) : Prop :=
  itemCmp lc a b ≤ 0

instance (lc : String → String → Int) : DecidableRel (itemLe lc) :=
  fun _ _ => Int.decLe _ _

/-- `FileService._sortItems`: `Array.prototype.sort` with `itemCmp`.
JavaScript's sort is stable and, for a consistent comparator, every stable
sort computes the same list; it is embedded as stable insertion sort. -/
def sortItems (lc : String → String → Int) (items : List Item) : List Item :=
  List.insertionSort (itemLe lc) items

/-- The `catch` block of each public operation: re-throw with an
operation-specific message prefixed to the cause's message. -/
def wrapError {α : Type} (pfx : String) : Except String α → Except String α
  | .error e => .error (pfx ++ e)
  | .ok v => .ok v

/-- `FileService._getItemInfo`: stat one child and build its entry. -/
def getItemInfo (ops : FsOps) (fullPath : List String) (item : String)
    (dirPath : String) : Except String Item := do
  let itemStats ← ops.stat (fullPath ++ [item])
  pure
    { name := item
      path := pathJoinStr dirPath item
      isFolder := itemStats.isDirectory
      size := itemStats.size
      modified := itemStats.mtimeIso }

/-- The `Promise.all(items.map(item => this._getItemInfo(...)))` step: all
children are statted and any single failure rejects the whole batch. -/
def getItemInfos (ops : FsOps) (fullPath : List String) (dirPath : String) :
    List String → Except String (List Item)
  | [] => .ok []
  | item :: rest => do
    let info ← getItemInfo ops fullPath item dirPath
    let infos ← getItemInfos ops fullPath dirPath rest
    pure (info :: infos)

/-- `FileService.listDirectory`. -/
def listDirectory (ops : FsOps) (lc : String → String → Int)
    (dataDir : List String) (dirPath : String) : Except String (List Item) :=
  wrapError "Failed to list directory: " (do
    let fullPath := resolveFull dataDir dirPath
    if !ops.pathExists fullPath then
      throw "Directory not found"
    else do
      let stats ← ops.stat fullPath
      if !stats.isDirectory then
        throw "Path is not a directory"
      else do
        let items ← ops.readdir fullPath
        let result ← getItemInfos ops fullPath dirPath items
        pure (sortItems lc result))

/-! ### Reading a file -/

/-- What `FileService.getFileContent` resolves with. -/
structure FileData where
  content : String
  size : Nat
  modified : String
deriving Repr, DecidableEq

/-- `FileService.getFileContent`. -/
def getFileContent (ops : FsOps) (dataDir : List String) (filePath : String) :
    Except String FileData :=
  wrapError "Failed to read file: " (do
    let fullPath := resolveFull dataDir filePath
    if !ops.pathExists fullPath then
      throw "File not found"
    else do
      let stats ← ops.stat fullPath
      if stats.isDirectory then
        throw "Path is a directory, not a file"
      else do
        let bytes ← ops.readFileBytes fullPath
        pure
          { content := utf8DecodeLossy bytes
            size := stats.size
            modified := stats.mtimeIso })

/-! ### Download -/

/-- What has been sent to the response sink. -/
inductive ReplyBody where
  | empty
  | fileStream (path : List String)
  | zip (entries : List String)
deriving Repr, DecidableEq

/-- The response sink: headers set so far and the body committed to it. -/
structure Reply where
  headers : List (String × String)
  body : ReplyBody
deriving Repr, DecidableEq

mutual
/-- Modelled from the spec: `archiver`'s `archive.directory(source, dest)`
walk, which adds every file and (empty) directory of the subtree as an
entry named `dest/<relative-subpath>`, in filesystem-walk order (the
`archiver` library itself is an external dependency, not repository code;
the spec describes its entry naming).  A directory node contributes a
`.../` entry and its children follow with the extended name. -/
def entryNames : FSNode → String → List String
  | .file _ _, dest => [dest]
  | .dir _ _ cs, dest => (dest ++ "/") :: entryNamesList cs dest

/-- The children's entries of a directory being walked. -/
def entryNamesList : List (String × FSNode) → String → List String
  | [], _ => []
  | (n, c) :: rest, dest =>
    entryNames c (dest ++ "/" ++ n) ++ entryNamesList rest dest
end

/-- `FileService._downloadFile`: disposition and content-type headers, then
the raw bytes of the file are streamed to the sink. -/
def downloadFileReply (fullPath : List String) (itemName : String)
    (reply : Reply) : Reply :=
  { headers := reply.headers ++
      [("Content-Disposition", "attachment; filename=\"" ++ itemName ++ "\""),
       ("Content-Type", "application/octet-stream")]
    body := ReplyBody.fileStream fullPath }

/-- `FileService._downloadDirectory`: disposition and content-type headers,
then the zip produced by `archive.directory(fullPath, itemName)`. -/
def downloadDirReply (node : FSNode) (itemName : String) (reply : Reply) :
    Reply :=
  { headers := reply.headers ++
      [("Content-Disposition",
        "attachment; filename=\"" ++ itemName ++ ".zip\""),
       ("Content-Type", "application/zip")]
    body := ReplyBody.zip (entryNames node itemName) }

/-- `FileService.downloadItem` over a static tree: the existence check and
the `stat`-based file/directory branch collapse to one tree lookup (on a
race-free tree `fs.pathExists` is true exactly when `fs.stat` succeeds).
Returns the outcome together with the final sink state. -/
def downloadItem (root : FSNode) (dataDir : List String) (itemPath : String)
    (reply : Reply) : Except String Unit × Reply :=
  let fullPath := resolveFull dataDir itemPath
  match root.find fullPath with
  | none => (.error ("Failed to download item: " ++ "Item not found"), reply)
  | some node =>
    let itemName := basename itemPath
    match node with
    | .file _ _ => (.ok (), downloadFileReply fullPath itemName reply)
    | .dir _ _ _ => (.ok (), downloadDirReply node itemName reply)

/-- The fixed extension → MIME table of the repository's other
`FileService._downloadFile` variant (the file under `src/unnamed` that
consults `contentTypes[ext]`); the variant cited by the spec's MIME-table
sentence.  The deployed `fileService.js` does not consult it. -/
def contentTypes : List (String × String) :=
  [(".txt", "text/plain"), (".json", "application/json"), (".csv", "text/csv"),
   (".md", "text/markdown"), (".yaml", "application/x-yaml"),
   (".yml", "application/x-yaml"), (".xml", "application/xml"),
   (".html", "text/html"), (".css", "text/css"),
   (".js", "application/javascript"), (".png", "image/png"),
   (".jpg", "image/jpeg"), (".jpeg", "image/jpeg"), (".gif", "image/gif"),
   (".pdf", "application/pdf"), (".zip", "application/zip")]

/-- The content type the spec's MIME-table sentence describes: look the
lowercased extension up in the fixed table, falling back to the generic
binary type only when the extension is absent. -/
def mimeTableLookup (itemName : String) : String :=
  match contentTypes.lookup (strLower (extname itemName)) with
  | some t => t
  | none => "application/octet-stream"

/-! ### Concrete instances used to evaluate the model -/

/-- A small concrete machine: the service's data directory is
`/app/data` and, crucially, `/etc/passwd` lies outside it.  Directory
inodes report size 4096 (as on ext4); `e.txt` holds the two-byte UTF-8
encoding of `é`. -/
def demoTree : FSNode :=
  .dir 4096 "T0"
    [("app", .dir 4096 "T1"
       [("data", .dir 4096 "T2"
          [("b.txt", .file [104, 105] "T3"),
           ("docs", .dir 4096 "T4" [("readme.md", .file [97] "T5")]),
           ("a.txt", .file [104] "T6"),
           ("e.txt", .file [0xC3, 0xA9] "T9")])]),
     ("etc", .dir 4096 "T7" [("passwd", .file [114, 111, 111, 116] "T8")])]

/-- The data directory of the concrete machine, `/app/data`. -/
def demoDataDir : List String := ["app", "data"]

/-- The primitives of the concrete machine. -/
def demoOps : FsOps := FsOps.ofTree demoTree

/-- A concrete locale comparison (by string length): a consistent
comparator, used to instantiate the locale-parametric theorems. -/
def lcLen (a b : String) : Int := (a.length : Int) - (b.length : Int)

/-- Primitives exhibiting the `readdir`/`stat` race the spec discusses: the
directory `/data` exists and `readdir` still reports a child `ghost`, but the
child has been deleted by the time it is statted, so its `stat` fails. -/
def raceOps : FsOps where
  pathExists _ := true
  stat segs :=
    if segs = ["data"] then .ok ⟨true, 4096, "T0"⟩
    else .error "ENOENT: no such file or directory, stat"
  readdir _ := .ok ["ghost"]
  readFileBytes _ := .error "ENOENT: no such file or directory, open"

/-- A fresh response sink: no headers set, nothing written. -/
def emptyReply : Reply := ⟨[], ReplyBody.empty⟩

/-! ## Lemmas about the embedding -/

/-- An error out of a `catch` wrapper is the cause's message behind the
operation prefix. -/
theorem wrapError_error {α : Type} {pfx m : String} {r : Except String α}
    (h : wrapError pfx r = .error m) :
    ∃ inner, r = .error inner ∧ m = pfx ++ inner := by
  cases r with
  | ok v => simp [wrapError] at h
  | error e =>
    have h' : pfx ++ e = m := by simpa [wrapError] using h
    exact ⟨e, rfl, h'.symm⟩

/-- A success out of a `catch` wrapper is the body's success. -/
theorem wrapError_ok {α : Type} {pfx : String} {v : α} {r : Except String α}
    (h : wrapError pfx r = .ok v) : r = .ok v := by
  cases r with
  | ok w => simpa [wrapError] using h
  | error e => simp [wrapError] at h

/-- Reduction of the `Except` bind on a success, for rewriting. -/
theorem bindE_ok {α β : Type} (v : α) (f : α → Except String β) :
    (Except.ok v >>= f) = f v := rfl

/-- Reduction of the `Except` bind on an error, for rewriting. -/
theorem bindE_error {α β : Type} (e : String) (f : α → Except String β) :
    ((Except.error e : Except String α) >>= f) = Except.error e := rfl

/-- Reduction of the `Except` map on a success, for rewriting. -/
theorem mapE_ok {α β : Type} (f : α → β) (v : α) :
    (f <$> (Except.ok v : Except String α)) = Except.ok (f v) := rfl

/-- Reduction of the `Except` map on an error, for rewriting. -/
theorem mapE_error {α β : Type} (f : α → β) (e : String) :
    (f <$> (Except.error e : Except String α)) = Except.error e := rfl

/-- `throw` on `Except` is `Except.error`, for rewriting. -/
theorem throwE {α : Type} (e : String) :
    (throw e : Except String α) = Except.error e := rfl

/-- A successful `_getItemInfo` comes from a successful child `stat` and
copies its fields into the entry. -/
theorem getItemInfo_ok {ops : FsOps} {full : List String} {n dir : String}
    {x : Item} (h : getItemInfo ops full n dir = .ok x) :
    ∃ st, ops.stat (full ++ [n]) = .ok st
      ∧ x = ⟨n, pathJoinStr dir n, st.isDirectory, st.size, st.mtimeIso⟩ := by
  cases hst : ops.stat (full ++ [n]) with
  | error e => simp [getItemInfo, hst] at h
  | ok st =>
    refine ⟨st, rfl, ?_⟩
    have := h
    simp [getItemInfo, hst] at this
    exact this.symm

/-- Every entry of a successful child-stat batch records the `stat` of the
like-named child: its `size` and `isFolder` are exactly what `stat`
reported (a directory's reported size, in particular, is whatever the
filesystem says, not a synthetic 0). -/
theorem getItemInfos_ok_mem {ops : FsOps} {full : List String} {dir : String} :
    ∀ {names : List String} {l : List Item},
      getItemInfos ops full dir names = .ok l →
      ∀ x ∈ l, ∃ st, ops.stat (full ++ [x.name]) = .ok st
        ∧ x.size = st.size ∧ x.isFolder = st.isDirectory
        ∧ x.modified = st.mtimeIso
  | [], l, h, x, hx => by
    simp [getItemInfos] at h
    subst h
    simp at hx
  | n :: rest, l, h, x, hx => by
    cases hinfo : getItemInfo ops full n dir with
    | error e => simp [getItemInfos, hinfo, bindE_error] at h
    | ok info =>
      cases hrest : getItemInfos ops full dir rest with
      | error e =>
        simp [getItemInfos, hinfo, hrest, bindE_ok, bindE_error, mapE_error]
          at h
      | ok infos =>
        have hl : l = info :: infos := by
          have h' := h
          simp [getItemInfos, hinfo, hrest, bindE_ok, mapE_ok] at h'
          exact h'.symm
        subst hl
        rcases List.mem_cons.mp hx with hx' | hx'
        · obtain ⟨st, hst, hmk⟩ := getItemInfo_ok hinfo
          subst hx'
          subst hmk
          exact ⟨st, hst, rfl, rfl, rfl⟩
        · exact getItemInfos_ok_mem hrest x hx'

/-- If the `stat` of any single child listed by `readdir` fails, the whole
`Promise.all` batch rejects. -/
theorem getItemInfos_error_of_child {ops : FsOps} {full : List String}
    (dir : String) :
    ∀ {names : List String} {c e : String},
      c ∈ names → ops.stat (full ++ [c]) = .error e →
      ∃ m, getItemInfos ops full dir names = .error m
  | [], c, e, hc, _ => by cases hc
  | n :: rest, c, e, hc, he => by
    cases hinfo : getItemInfo ops full n dir with
    | error m => exact ⟨m, by simp [getItemInfos, hinfo, bindE_error]⟩
    | ok info =>
      have hcr : c ∈ rest := by
        rcases List.mem_cons.mp hc with hcn | hcr
        · subst hcn
          obtain ⟨st, hst, _⟩ := getItemInfo_ok hinfo
          rw [hst] at he
          cases he
        · exact hcr
      obtain ⟨m, hm⟩ := getItemInfos_error_of_child dir hcr he
      exact ⟨m, by
        simp [getItemInfos, hinfo, hm, bindE_ok, bindE_error, mapE_error]⟩

/-- Decomposition of a successful `listDirectory`: the path existed, its
`stat` said directory, `readdir` and the child-stat batch succeeded, and
the result is the sorted batch. -/
theorem listDirectory_ok {ops : FsOps} {lc : String → String → Int}
    {dataDir : List String} {p : String} {items : List Item}
    (h : listDirectory ops lc dataDir p = .ok items) :
    ops.pathExists (resolveFull dataDir p) = true
    ∧ ∃ st names l,
        ops.stat (resolveFull dataDir p) = .ok st
        ∧ st.isDirectory = true
        ∧ ops.readdir (resolveFull dataDir p) = .ok names
        ∧ getItemInfos ops (resolveFull dataDir p) p names = .ok l
        ∧ items = sortItems lc l := by
  have hbody := wrapError_ok h
  cases hex : ops.pathExists (resolveFull dataDir p) with
  | false => simp [hex, throwE] at hbody
  | true =>
    cases hst : ops.stat (resolveFull dataDir p) with
    | error e => simp [hex, hst, bindE_error] at hbody
    | ok st =>
      cases hdir : st.isDirectory with
      | false => simp [hex, hst, hdir, bindE_ok, throwE] at hbody
      | true =>
        cases hrd : ops.readdir (resolveFull dataDir p) with
        | error e => simp [hex, hst, hdir, hrd, bindE_ok, bindE_error] at hbody
        | ok names =>
          cases hgi : getItemInfos ops (resolveFull dataDir p) p names with
          | error e =>
            simp [hex, hst, hdir, hrd, hgi, bindE_ok, bindE_error, mapE_error]
              at hbody
          | ok l =>
            refine ⟨rfl, st, names, l, rfl, hdir, rfl, hgi, ?_⟩
            simp [hex, hst, hdir, hrd, hgi, bindE_ok, mapE_ok] at hbody
            exact hbody.symm

/-- The sort comparator is total whenever the locale comparison is
sign-antisymmetric (which every comparison function is). -/
theorem itemLe_total (lc : String → String → Int)
    (hsign : ∀ a b, 0 < lc a b → lc b a < 0) (a b : Item) :
    itemLe lc a b ∨ itemLe lc b a := by
  unfold itemLe itemCmp
  cases ha : a.isFolder <;> cases hb : b.isFolder <;> simp
  · by_cases hab : lc a.name b.name ≤ 0
    · exact Or.inl hab
    · exact Or.inr (le_of_lt (hsign _ _ (lt_of_not_le hab)))
  · by_cases hab : lc a.name b.name ≤ 0
    · exact Or.inl hab
    · exact Or.inr (le_of_lt (hsign _ _ (lt_of_not_le hab)))

/-- The sort comparator is transitive whenever the locale comparison is. -/
theorem itemLe_trans (lc : String → String → Int)
    (htrans : ∀ a b c, lc a b ≤ 0 → lc b c ≤ 0 → lc a c ≤ 0)
    (a b c : Item) (hab : itemLe lc a b) (hbc : itemLe lc b c) :
    itemLe lc a c := by
  unfold itemLe itemCmp at hab hbc ⊢
  cases ha : a.isFolder <;> cases hb : b.isFolder <;> cases hc : c.isFolder <;>
    rw [ha, hb] at hab <;> rw [hb, hc] at hbc <;> simp_all
  · exact htrans _ _ _ hab hbc
  · exact htrans _ _ _ hab hbc

/-- What a single comparator fact yields: a file never precedes a folder,
and within one group the locale comparison is nonpositive. -/
theorem itemLe_elim (lc : String → String → Int) (a b : Item)
    (h : itemLe lc a b) :
    (a.isFolder = false → b.isFolder = false)
    ∧ (a.isFolder = b.isFolder → lc a.name b.name ≤ 0) := by
  unfold itemLe itemCmp at h
  cases ha : a.isFolder <;> cases hb : b.isFolder <;> rw [ha, hb] at h <;>
    simp_all

mutual
/-- Every zip entry produced under destination name `dest` extends `dest`. -/
theorem entryNames_extend : ∀ (node : FSNode) (dest : String),
    ∀ e ∈ entryNames node dest, ∃ r, e = dest ++ r
  | .file _ _, dest, e, he => by
    simp [entryNames] at he
    exact ⟨"", by rw [String.append_empty]; exact he⟩
  | .dir _ _ cs, dest, e, he => by
    simp only [entryNames, List.mem_cons] at he
    rcases he with he | he
    · exact ⟨"/", he⟩
    · obtain ⟨n, r, hr⟩ := entryNamesList_extend cs dest e he
      exact ⟨"/" ++ n ++ r, by
        rw [hr, String.append_assoc, String.append_assoc,
          ← String.append_assoc "/"]⟩

/-- Every zip entry of a child list extends `dest ++ "/" ++ childName`. -/
theorem entryNamesList_extend : ∀ (cs : List (String × FSNode)) (dest : String),
    ∀ e ∈ entryNamesList cs dest, ∃ n r, e = dest ++ "/" ++ n ++ r
  | [], _, e, he => by simp [entryNamesList] at he
  | (n, c) :: rest, dest, e, he => by
    simp only [entryNamesList, List.mem_append] at he
    rcases he with he | he
    · obtain ⟨r, hr⟩ := entryNames_extend c (dest ++ "/" ++ n) e he
      exact ⟨n, r, hr⟩
    · exact entryNamesList_extend rest dest e he
end

/-- Every entry name of the archive of a directory is the destination name,
a slash, then a relative subpath — so extraction reproduces
`<directoryName>/<relative-subpath>`. -/
theorem entryNames_dir_names {sz : Nat} {mt dest : String}
    {cs : List (String × FSNode)} :
    ∀ e ∈ entryNames (FSNode.dir sz mt cs) dest,
      ∃ rest, e = dest ++ "/" ++ rest := by
  intro e he
  simp only [entryNames, List.mem_cons] at he
  rcases he with he | he
  · exact ⟨"", by rw [String.append_empty]; exact he⟩
  · obtain ⟨n, r, hr⟩ := entryNamesList_extend cs dest e he
    exact ⟨n ++ r, by rw [hr, String.append_assoc]⟩

/-! ## The claims -/

/-- **C6.** For every logical path `p`, `getFileContent` fails with the
`IsADirectory`-kind error (`"Path is a directory, not a file"`, behind the
operation prefix) when the resolved target exists and is a directory, fails
with the `NotFound`-kind error (`"File not found"`) when the resolved target
does not exist, and returns content with size and modification time only
when the target is an existing file. -/
theorem c6_readFile_error_kinds (ops : FsOps) (dataDir : List String)
    (p : String) :
    (ops.pathExists (resolveFull dataDir p) = false →
      getFileContent ops dataDir p
        = .error "Failed to read file: File not found")
    ∧ (∀ st : Stat, ops.pathExists (resolveFull dataDir p) = true →
        ops.stat (resolveFull dataDir p) = .ok st →
        st.isDirectory = true →
        getFileContent ops dataDir p
          = .error "Failed to read file: Path is a directory, not a file")
    ∧ (∀ (st : Stat) (bytes : List Nat),
        ops.pathExists (resolveFull dataDir p) = true →
        ops.stat (resolveFull dataDir p) = .ok st →
        st.isDirectory = false →
        ops.readFileBytes (resolveFull dataDir p) = .ok bytes →
        getFileContent ops dataDir p
          = .ok ⟨utf8DecodeLossy bytes, st.size, st.mtimeIso⟩) := by
  refine ⟨?_, ?_, ?_⟩
  · intro hex
    simp [getFileContent, hex, wrapError, throwE]
  · intro st hex hst hdir
    simp [getFileContent, hex, hst, hdir, wrapError, throwE, bindE_ok]
  · intro st bytes hex hst hdir hrb
    simp [getFileContent, hex, hst, hdir, hrb, wrapError, throwE, bindE_ok]

/-- Witness for C6 on the concrete machine: a missing path, a directory and
a plain file. -/
theorem c6_witness :
    getFileContent demoOps demoDataDir "/nope"
      = .error "Failed to read file: File not found"
    ∧ getFileContent demoOps demoDataDir "/docs"
      = .error "Failed to read file: Path is a directory, not a file"
    ∧ getFileContent demoOps demoDataDir "/a.txt"
      = .ok ⟨utf8DecodeLossy [104], 1, "T6"⟩ :=
  ⟨(c6_readFile_error_kinds demoOps demoDataDir "/nope").1 rfl,
   (c6_readFile_error_kinds demoOps demoDataDir "/docs").2.1
     ⟨true, 4096, "T4"⟩ rfl rfl rfl,
   (c6_readFile_error_kinds demoOps demoDataDir "/a.txt").2.2
     ⟨false, 1, "T6"⟩ [104] rfl rfl rfl rfl⟩

/-- **C7.** If the `stat` of any single child listed by `readdir` fails
during listing (e.g. the child is deleted between `readdir` and `stat`),
`listDirectory` fails with an `Error` and returns no entries at all: the
result is an `Except.error`, which carries no partial entry list. -/
theorem c7_child_stat_failure_aborts (ops : FsOps)
    (lc : String → String → Int) (dataDir : List String) (p : String)
    (names : List String) (c : String) (st : Stat) (e : String)
    (hex : ops.pathExists (resolveFull dataDir p) = true)
    (hst : ops.stat (resolveFull dataDir p) = .ok st)
    (hdir : st.isDirectory = true)
    (hrd : ops.readdir (resolveFull dataDir p) = .ok names)
    (hc : c ∈ names)
    (he : ops.stat (resolveFull dataDir p ++ [c]) = .error e) :
    ∃ msg, listDirectory ops lc dataDir p = .error msg := by
  obtain ⟨m, hm⟩ := getItemInfos_error_of_child p hc he
  refine ⟨"Failed to list directory: " ++ m, ?_⟩
  simp [listDirectory, hex, hst, hdir, hrd, hm, wrapError, bindE_ok,
    bindE_error, mapE_error]

/-- Witness for C7: primitives exhibiting the deletion race on the concrete
machine make the whole listing fail. -/
theorem c7_witness : ∃ msg, listDirectory raceOps lcLen ["data"] "/" = .error msg :=
  c7_child_stat_failure_aborts raceOps lcLen ["data"] "/" ["ghost"] "ghost"
    ⟨true, 4096, "T0"⟩ "ENOENT: no such file or directory, stat"
    rfl rfl rfl rfl (by simp) rfl

/-- **C8.** `downloadItem` on a path whose resolved target does not exist
fails with the `NotFound`-kind error before writing any header or any byte:
the returned sink state is exactly the input sink state. -/
theorem c8_download_missing_leaves_sink (root : FSNode)
    (dataDir : List String) (p : String) (reply : Reply)
    (h : FSNode.find root (resolveFull dataDir p) = none) :
    downloadItem root dataDir p reply
      = (.error "Failed to download item: Item not found", reply) := by
  simp [downloadItem, h]

/-- Witness for C8: a missing path on the concrete machine, with a sink that
already carries a header, which survives untouched. -/
theorem c8_witness :
    downloadItem demoTree demoDataDir "/zzz" ⟨[("X-Prior", "1")], ReplyBody.empty⟩
      = (.error "Failed to download item: Item not found",
         ⟨[("X-Prior", "1")], ReplyBody.empty⟩) :=
  c8_download_missing_leaves_sink demoTree demoDataDir "/zzz" _ rfl

/-- **C10.** Every error raised by the three public operations is the
underlying cause's message behind a fixed operation-specific prefix
(`"Failed to list directory: "`, `"Failed to read file: "`,
`"Failed to download item: "`).  The embedding's error type is a bare
string, mirroring the source's untyped `Error` whose kinds are
distinguishable only as message substrings. -/
theorem c10_error_message_prefixes (ops : FsOps) (lc : String → String → Int)
    (root : FSNode) (dataDir : List String) (p q d : String) (reply : Reply) :
    (∀ m, listDirectory ops lc dataDir p = .error m →
      ∃ inner, m = "Failed to list directory: " ++ inner)
    ∧ (∀ m, getFileContent ops dataDir q = .error m →
      ∃ inner, m = "Failed to read file: " ++ inner)
    ∧ (∀ m r, downloadItem root dataDir d reply = (.error m, r) →
      ∃ inner, m = "Failed to download item: " ++ inner) := by
  refine ⟨?_, ?_, ?_⟩
  · intro m hm
    unfold listDirectory at hm
    obtain ⟨inner, -, hmi⟩ := wrapError_error hm
    exact ⟨inner, hmi⟩
  · intro m hm
    unfold getFileContent at hm
    obtain ⟨inner, -, hmi⟩ := wrapError_error hm
    exact ⟨inner, hmi⟩
  · intro m r hm
    cases hf : FSNode.find root (resolveFull dataDir d) with
    | none =>
      simp [downloadItem, hf] at hm
      refine ⟨"Item not found", ?_⟩
      rw [← hm.1]
      rfl
    | some node =>
      cases node with
      | file bytes mt => simp [downloadItem, hf] at hm
      | dir sz mt cs => simp [downloadItem, hf] at hm

/-- Witness for C10: a concrete error from each operation on the concrete
machine, its message exhibiting the operation prefix. -/
theorem c10_witness :
    (∃ inner, ("Failed to list directory: Directory not found" : String)
      = "Failed to list directory: " ++ inner)
    ∧ (∃ inner, ("Failed to read file: File not found" : String)
      = "Failed to read file: " ++ inner)
    ∧ (∃ inner, ("Failed to download item: Item not found" : String)
      = "Failed to download item: " ++ inner) :=
  ⟨(c10_error_message_prefixes demoOps lcLen demoTree demoDataDir
      "/nope" "/nope" "/nope" emptyReply).1 _ rfl,
   (c10_error_message_prefixes demoOps lcLen demoTree demoDataDir
      "/nope" "/nope" "/nope" emptyReply).2.1 _ rfl,
   (c10_error_message_prefixes demoOps lcLen demoTree demoDataDir
      "/nope" "/nope" "/nope" emptyReply).2.2 _ _ rfl⟩

/-- **C3.** For every valid directory, `listDirectory` returns entries with
every directory entry before every file entry and, within each of the two
groups, names ascending by the locale comparison; and two calls on the same
unchanged directory (same primitives) yield identical order.  The locale
comparison is assumed sign-antisymmetric and transitive, which the runtime's
`localeCompare` is for a fixed locale; the embedding of `Array.sort` is a
stable sort, so the result is a function of the inputs alone. -/
theorem c3_listing_sorted (ops : FsOps) (lc : String → String → Int)
    (hsign : ∀ a b, 0 < lc a b → lc b a < 0)
    (htrans : ∀ a b c, lc a b ≤ 0 → lc b c ≤ 0 → lc a c ≤ 0)
    (dataDir : List String) (p : String) (items : List Item)
    (h : listDirectory ops lc dataDir p = .ok items) :
    items.Pairwise (fun a b =>
      (a.isFolder = false → b.isFolder = false)
      ∧ (a.isFolder = b.isFolder → lc a.name b.name ≤ 0))
    ∧ listDirectory ops lc dataDir p = listDirectory ops lc dataDir p := by
  obtain ⟨-, st, names, l, -, -, -, -, hitems⟩ := listDirectory_ok h
  subst hitems
  haveI : IsTotal Item (itemLe lc) := ⟨itemLe_total lc hsign⟩
  haveI : IsTrans Item (itemLe lc) := ⟨itemLe_trans lc htrans⟩
  have hs : List.Sorted (itemLe lc) (sortItems lc l) :=
    List.sorted_insertionSort (itemLe lc) l
  exact ⟨hs.imp (fun hab => itemLe_elim lc _ _ hab), rfl⟩

/-- Witness for C3 on the concrete machine, with the concrete length-based
locale comparison: the folder precedes the files, file names are ascending
in the comparison, and the listing is reproducible. -/
theorem c3_witness :
    ([⟨"docs", "/docs", true, 4096, "T4"⟩,
      ⟨"b.txt", "/b.txt", false, 2, "T3"⟩,
      ⟨"a.txt", "/a.txt", false, 1, "T6"⟩,
      ⟨"e.txt", "/e.txt", false, 2, "T9"⟩] : List Item).Pairwise
      (fun a b => (a.isFolder = false → b.isFolder = false)
        ∧ (a.isFolder = b.isFolder → lcLen a.name b.name ≤ 0))
    ∧ listDirectory demoOps lcLen demoDataDir "/"
        = listDirectory demoOps lcLen demoDataDir "/" :=
  c3_listing_sorted demoOps lcLen
    (fun a b h => by simp only [lcLen] at h ⊢; omega)
    (fun a b c h1 h2 => by simp only [lcLen] at h1 h2 ⊢; omega)
    demoDataDir "/" _ rfl

/-- **C2 counterexample.** A folder entry whose serialized `size` is not 0:
on the concrete machine the folder `docs` is listed with the directory
inode's `stat` size 4096. -/
theorem c2_counterexample :
    ∃ items, listDirectory demoOps lcLen demoDataDir "/" = .ok items
      ∧ ∃ x ∈ items, x.isFolder = true ∧ x.size ≠ 0 := by
  refine ⟨[⟨"docs", "/docs", true, 4096, "T4"⟩,
      ⟨"b.txt", "/b.txt", false, 2, "T3"⟩,
      ⟨"a.txt", "/a.txt", false, 1, "T6"⟩,
      ⟨"e.txt", "/e.txt", false, 2, "T9"⟩], rfl,
    ⟨"docs", "/docs", true, 4096, "T4"⟩, ?_, rfl, ?_⟩
  · simp
  · decide

/-- **C2 amended.** Every entry's serialized `size` (and `isFolder`) is
exactly what `stat` reported for that child — for a folder this is the
directory's filesystem-reported size, not necessarily 0. -/
theorem c2_amended_size_is_stat_size (ops : FsOps)
    (lc : String → String → Int) (dataDir : List String) (p : String)
    (items : List Item) (h : listDirectory ops lc dataDir p = .ok items) :
    ∀ x ∈ items, ∃ st : Stat,
      ops.stat (resolveFull dataDir p ++ [x.name]) = .ok st
      ∧ x.size = st.size ∧ x.isFolder = st.isDirectory := by
  obtain ⟨-, st, names, l, -, -, -, hgi, hitems⟩ := listDirectory_ok h
  subst hitems
  intro x hx
  have hx' : x ∈ l := by
    unfold sortItems at hx
    exact (List.mem_insertionSort _).mp hx
  obtain ⟨st', hst', h1, h2, -⟩ := getItemInfos_ok_mem hgi x hx'
  exact ⟨st', hst', h1, h2⟩

/-- Witness for the amended C2: the `docs` folder entry carries the 4096
that `stat` reports for the directory inode. -/
theorem c2_amended_witness :
    ∃ st : Stat, demoOps.stat (resolveFull demoDataDir "/" ++ ["docs"]) = .ok st
      ∧ (4096 : Nat) = st.size ∧ (true : Bool) = st.isDirectory := by
  have h := c2_amended_size_is_stat_size demoOps lcLen demoDataDir "/"
    [⟨"docs", "/docs", true, 4096, "T4"⟩,
     ⟨"b.txt", "/b.txt", false, 2, "T3"⟩,
     ⟨"a.txt", "/a.txt", false, 1, "T6"⟩,
     ⟨"e.txt", "/e.txt", false, 2, "T9"⟩] rfl
    ⟨"docs", "/docs", true, 4096, "T4"⟩ (by simp)
  exact h

/-- **C4.** `downloadItem` on a directory sets a `Content-Disposition`
header naming `<directoryName>.zip` and `Content-Type: application/zip`,
and every entry name of the emitted ZIP is the directory's base name, a
slash, then the relative subpath — so extraction reproduces
`<directoryName>/<relative-subpath>`. -/
theorem c4_download_directory_zip (root : FSNode) (dataDir : List String)
    (itemPath : String) (reply : Reply) (sz : Nat) (mt : String)
    (cs : List (String × FSNode))
    (h : FSNode.find root (resolveFull dataDir itemPath)
      = some (.dir sz mt cs)) :
    ∃ entries,
      downloadItem root dataDir itemPath reply
        = (.ok (), ⟨reply.headers ++
            [("Content-Disposition",
              "attachment; filename=\"" ++ basename itemPath ++ ".zip\""),
             ("Content-Type", "application/zip")],
           ReplyBody.zip entries⟩)
      ∧ ∀ e ∈ entries, ∃ rest, e = basename itemPath ++ "/" ++ rest := by
  refine ⟨entryNames (FSNode.dir sz mt cs) (basename itemPath), ?_, ?_⟩
  · simp [downloadItem, h, downloadDirReply]
  · exact fun e he => entryNames_dir_names e he

/-- Witness for C4: downloading `/docs` on the concrete machine. -/
theorem c4_witness :
    ∃ entries,
      downloadItem demoTree demoDataDir "/docs" emptyReply
        = (.ok (), ⟨emptyReply.headers ++
            [("Content-Disposition",
              "attachment; filename=\"" ++ basename "/docs" ++ ".zip\""),
             ("Content-Type", "application/zip")],
           ReplyBody.zip entries⟩)
      ∧ ∀ e ∈ entries, ∃ rest, e = basename "/docs" ++ "/" ++ rest :=
  c4_download_directory_zip demoTree demoDataDir "/docs" emptyReply 4096 "T4"
    [("readme.md", .file [97] "T5")] rfl

/-- **C5 counterexample.** The deployed `_downloadFile` does not consult the
extension → MIME table: downloading `a.txt`, whose extension `.txt` the
table maps to `text/plain`, still responds `application/octet-stream`. -/
theorem c5_counterexample :
    (downloadItem demoTree demoDataDir "/a.txt" emptyReply).2.headers.lookup
        "Content-Type" = some "application/octet-stream"
    ∧ mimeTableLookup (basename "/a.txt") = "text/plain"
    ∧ ("application/octet-stream" : String) ≠ "text/plain" :=
  ⟨rfl, rfl, by decide⟩

/-- **C5 amended.** `downloadItem` on an existing file always sets
`Content-Type: application/octet-stream`, whatever the extension. -/
theorem c5_amended_always_octet_stream (root : FSNode)
    (dataDir : List String) (p : String) (reply : Reply) (bytes : List Nat)
    (mt : String)
    (h : FSNode.find root (resolveFull dataDir p) = some (.file bytes mt)) :
    downloadItem root dataDir p reply
      = (.ok (), ⟨reply.headers ++
          [("Content-Disposition",
            "attachment; filename=\"" ++ basename p ++ "\""),
           ("Content-Type", "application/octet-stream")],
         ReplyBody.fileStream (resolveFull dataDir p)⟩) := by
  simp [downloadItem, h, downloadFileReply]

/-- Witness for the amended C5: downloading `/a.txt` responds
`application/octet-stream` even though `.txt` is in the table. -/
theorem c5_amended_witness :
    downloadItem demoTree demoDataDir "/a.txt" emptyReply
      = (.ok (), ⟨emptyReply.headers ++
          [("Content-Disposition",
            "attachment; filename=\"" ++ basename "/a.txt" ++ "\""),
           ("Content-Type", "application/octet-stream")],
         ReplyBody.fileStream (resolveFull demoDataDir "/a.txt")⟩) :=
  c5_amended_always_octet_stream demoTree demoDataDir "/a.txt" emptyReply
    [104] "T6" rfl

/-- **C9.** The `size` returned by `getFileContent` is the file's byte count
on disk as `stat` reports it (the `stat` is taken before the content is
read), and this can differ from the character length of the UTF-8-decoded
content string: a byte list exists whose decoding has a different length. -/
theorem c9_size_from_stat (root : FSNode) (dataDir : List String) (p : String)
    (bytes : List Nat) (mt : String)
    (h : FSNode.find root (resolveFull dataDir p) = some (.file bytes mt)) :
    getFileContent (FsOps.ofTree root) dataDir p
      = .ok ⟨utf8DecodeLossy bytes, bytes.length, mt⟩
    ∧ ∃ bs : List Nat, (utf8DecodeLossy bs).length ≠ bs.length := by
  constructor
  · simp [getFileContent, FsOps.ofTree, h, statOfNode, wrapError, throwE,
      bindE_ok]
  · exact ⟨[0xC3, 0xA9], by decide⟩

/-- Witness for C9: `e.txt` holds the two-byte encoding of `é`; the
returned size is 2 while the decoded content has a single character. -/
theorem c9_witness :
    (getFileContent (FsOps.ofTree demoTree) demoDataDir "/e.txt"
      = .ok ⟨utf8DecodeLossy [0xC3, 0xA9], 2, "T9"⟩
    ∧ ∃ bs : List Nat, (utf8DecodeLossy bs).length ≠ bs.length)
    ∧ (utf8DecodeLossy [0xC3, 0xA9]).length = 1 :=
  ⟨c9_size_from_stat demoTree demoDataDir "/e.txt" [0xC3, 0xA9] "T9" rfl,
   by decide⟩

/-- **C1 (the code violates it).** The service performs no traversal check
at all: with Root `/app/data`, the logical path `/../../etc` resolves (via
`path.join`'s `..` normalization) to `/etc`, which is not under Root, yet
`listDirectory` happily lists it, `getFileContent` reads `/etc/passwd`, and
`downloadItem` streams it — no `InvalidPath` failure exists anywhere in the
code. -/
theorem c1_traversal_unchecked :
    underRoot demoDataDir (resolveFull demoDataDir "/../../etc") = false
    ∧ listDirectory demoOps lcLen demoDataDir "/../../etc"
        = .ok [⟨"passwd", "/etc/passwd", false, 4, "T8"⟩]
    ∧ getFileContent demoOps demoDataDir "/../../etc/passwd"
        = .ok ⟨"root", 4, "T8"⟩
    ∧ downloadItem demoTree demoDataDir "/../../etc/passwd" emptyReply
        = (.ok (), ⟨[("Content-Disposition",
              "attachment; filename=\"passwd\""),
            ("Content-Type", "application/octet-stream")],
           ReplyBody.fileStream ["etc", "passwd"]⟩) :=
  ⟨rfl, rfl, rfl, rfl⟩

end FileManagement
